import Mathlib

set_option maxRecDepth 100000

/-!
Verification of the code-validation linting tool (`code_validation.py`).

The tool reads a Python source file as a list of raw lines, runs a suite of
style checks over the lines and over the parsed definition nodes, aggregates
the resulting violation lists into a template-variable record and renders a
markdown report.  Below each Python function that the claims refer to is
embedded as an executable Lean definition over the same data:

* file contents are `List String` (one entry per raw line);
* the Python `ast` parser is an external collaborator, so a parsed definition
  node (`ast.FunctionDef` / `ast.ClassDef`) is modelled by the record `PyDef`
  carrying the fields the tool reads (`name`, `lineno`, `end_lineno`,
  docstring presence), and the module body by the list of booleans
  "this top-level statement is a standalone string-literal expression";
* Python exceptions (`IndexError`) are modelled by `Option`, `none` meaning
  the call raises;
* Python's negative-index list access and slice semantics are modelled
  explicitly (`pyGet`, `pySlice`).
-/

/-! ## Python string primitives -/

/-- Python whitespace characters, as recognised by `str.strip` and `\s`
(ASCII range; the inputs of interest are ASCII). -/
def isPyWs (c : Char) : Bool :=
  c == ' ' || c == '\t' || c == '\n' || c == '\r' || c == '\x0b' || c == '\x0c'

/-- `str.strip()` on a character list: drop leading and trailing whitespace. -/
def pyStripL (l : List Char) : List Char :=
  ((l.dropWhile isPyWs).reverse.dropWhile isPyWs).reverse

/-- `startsWithL l pat`: the list `l` starts with the pattern `pat`
(`str.startswith`). -/
def startsWithL : List Char → List Char → Bool
  | _, [] => true
  | [], _ :: _ => false
  | a :: l, b :: pat => a == b && startsWithL l pat

/-- Python's `pat in l` substring test. -/
def containsL : List Char → List Char → Bool
  | [], pat => pat.isEmpty
  | l@(_ :: rest), pat => startsWithL l pat || containsL rest pat

/-- A line whose stripped text begins with the comment marker `#`
(the test `line.strip().startswith('#')` used throughout the tool). -/
def isCommentLine (s : String) : Bool :=
  startsWithL (pyStripL s.data) ['#']

/-- Python list access `l[i]` with negative-index wrap-around; `none` models
an `IndexError`. -/
def pyGet (l : List String) (i : Int) : Option String :=
  if 0 ≤ i then l.get? i.toNat
  else if i.natAbs ≤ l.length then l.get? (l.length - i.natAbs)
  else none

/-- Normalise a Python slice endpoint: negative endpoints count from the end,
everything is clamped into `[0, len]`. -/
def pyIdxNorm (len : Nat) (i : Int) : Nat :=
  if i < 0 then
    (if (len : Int) + i < 0 then 0 else ((len : Int) + i).toNat)
  else min i.toNat len

/-- Python slice `l[a:b]`. -/
def pySlice (l : List String) (a b : Int) : List String :=
  (l.take (pyIdxNorm l.length b)).drop (pyIdxNorm l.length a)

/-! ## Threshold constants (module level in the source) -/

def MAX_FILE_LINES : Nat := 2000
def MAX_LINE_CHARACTERS : Nat := 150
def MAX_VARIABLE_NAME_LENGTH : Nat := 25
def MAX_LINES_PER_METHOD : Nat := 40

/-! ## `check_invalid_imports` -/

/-- `\simport\s` can match at the head of this character list:
one whitespace character, the literal `import`, one whitespace character. -/
def impAt : List Char → Bool
  | a :: 'i' :: 'm' :: 'p' :: 'o' :: 'r' :: 't' :: b :: _ => isPyWs a && isPyWs b
  | _ => false

/-- Greedy capture of `(.*)\simport\s` (the tail of the pattern
`from\s(.*)\simport\s`): the capture is as long as possible, cannot cross a
newline (`.` does not match `\n`), and is followed by
whitespace-`import`-whitespace.  Returns `none` when no match exists. -/
def greedyCapture : List Char → Option (List Char)
  | [] => none
  | c :: rest =>
    match (if c = '\n' then none
           else (greedyCapture rest).map (fun cap => c :: cap)) with
    | some cap => some cap
    | none => if impAt (c :: rest) then some [] else none

/-- `re.search(r'from\s(.*)\simport\s', line)`: try each start position left
to right; at a position matching `from` + whitespace, take the greedy capture
if one exists, otherwise keep scanning.  Returns the captured group. -/
def fromImportSearch : List Char → Option (List Char)
  | [] => none
  | c :: rest =>
    match (match c :: rest with
           | 'f' :: 'r' :: 'o' :: 'm' :: w :: tl =>
             if isPyWs w then greedyCapture tl else none
           | _ => none) with
    | some cap => some cap
    | none => fromImportSearch rest

/-- `check_invalid_imports`: skip lines whose stripped text starts with
`import`; on the remaining lines, if the from-import regex matches and the
line contains `import *`, record the captured module text. -/
def check_invalid_imports : List String → List String
  | [] => []
  | line :: rest =>
    if startsWithL (pyStripL line.data) "import".data then
      check_invalid_imports rest
    else
      match fromImportSearch line.data with
      | some cap =>
        if containsL line.data "import *".data then
          String.mk cap :: check_invalid_imports rest
        else check_invalid_imports rest
      | none => check_invalid_imports rest

/-! ## `check_implementation_line_length` -/

/-- `re.sub(r'#.*', '', line)`: in every newline-separated segment, delete
from the first `#` to the end of the segment (`.` does not match `\n`, so
newlines survive).  The boolean state records "currently inside a deleted
comment region". -/
def stripHashAux : Bool → List Char → List Char
  | _, [] => []
  | true, c :: rest =>
    if c = '\n' then c :: stripHashAux false rest else stripHashAux true rest
  | false, c :: rest =>
    if c = '#' then stripHashAux true rest else c :: stripHashAux false rest

/-- `re.sub(r'#.*', '', line)` on a string. -/
def pyStripHash (s : String) : String := String.mk (stripHashAux false s.data)

/-- The enumeration loop of `check_implementation_line_length`; `k` is the
0-based index of the first line of the remaining list. -/
def cillAux : Nat → List String → List Nat
  | _, [] => []
  | k, line :: rest =>
    if isCommentLine line then cillAux (k + 1) rest
    else if (pyStripHash line).length > MAX_LINE_CHARACTERS then
      (k + 1) :: cillAux (k + 1) rest
    else cillAux (k + 1) rest

/-- `check_implementation_line_length`: 1-indexed numbers of the
non-comment lines whose comment-stripped length exceeds the limit. -/
def check_implementation_line_length (lines : List String) : List Nat :=
  cillAux 0 lines

/-! ## `check_implementation_variable_length` -/

/-- A `\w` word character (ASCII). -/
def isWordChar (c : Char) : Bool := c.isAlpha || c.isDigit || c == '_'

/-- `re.search(r'\b(\w+)\s*=', line)`: scan left to right; at a word
boundary (previous character not a word character), the greedy `\w+` takes
the whole maximal run, which must then be followed by whitespace and `=`.
The boolean argument records whether the previous character was a word
character. -/
def findAssignIdent : Bool → List Char → Option (List Char)
  | _, [] => none
  | prevW, c :: rest =>
    if isWordChar c && !prevW then
      (if (List.dropWhile isPyWs (List.dropWhile isWordChar (c :: rest))).head?
          = some '=' then
        some (List.takeWhile isWordChar (c :: rest))
      else findAssignIdent true rest)
    else findAssignIdent (isWordChar c) rest

/-- `word.upper() == word`: uppercasing changes nothing, i.e. the identifier
contains no lowercase letter (ASCII `str.upper`). -/
def isUpperInvariant (l : List Char) : Bool :=
  l.all (fun c => c.toUpper == c)

/-- The enumeration loop of `check_implementation_variable_length`. -/
def civlAux : Nat → List String → List Nat
  | _, [] => []
  | k, line :: rest =>
    match findAssignIdent false line.data with
    | some w =>
      if isUpperInvariant w then civlAux (k + 1) rest
      else if w.length > MAX_VARIABLE_NAME_LENGTH then
        (k + 1) :: civlAux (k + 1) rest
      else civlAux (k + 1) rest
    | none => civlAux (k + 1) rest

/-- `check_implementation_variable_length`: 1-indexed numbers of lines whose
first assigned identifier is not uppercase-invariant and is longer than the
limit. -/
def check_implementation_variable_length (lines : List String) : List Nat :=
  civlAux 0 lines

/-- `check_file_too_large` (returns `True` when the file size is acceptable). -/
def check_file_too_large (lines : List String) : Bool :=
  decide (lines.length ≤ MAX_FILE_LINES)

/-! ## File header check (`has_file_docstring`, `check_for_file_header`) -/

/-- `has_file_docstring`: the module body is modelled by one boolean per
top-level statement, true when that statement is a standalone string-literal
expression (`isinstance(body[0], ast.Expr) and isinstance(body[0].value,
ast.Str)`).  `tree.body[0]` on an empty body raises `IndexError` (`none`). -/
def has_file_docstring : List Bool → Option Bool
  | [] => none
  | b :: _ => some b

/-- `check_for_file_header`: true when the first line's stripped text starts
with `#` (in which case the docstring test is short-circuited), otherwise
whatever `has_file_docstring` returns; `none` when that call raises. -/
def check_for_file_header (implementation : List String) (body : List Bool) :
    Option Bool :=
  match pyGet implementation 0 with
  | none => none
  | some first =>
    if startsWithL (pyStripL first.data) ['#'] then some true
    else has_file_docstring body

/-! ## `remove_docstring` -/

/-- Find the first `"""` in the list; returns the characters before it and
the characters after it. -/
def findTriple : List Char → Option (List Char × List Char)
  | '"' :: '"' :: '"' :: rest => some ([], rest)
  | c :: rest => (findTriple rest).map (fun p => (c :: p.1, p.2))
  | [] => none

/-- The replacement loop of `re.sub(r'""".*?"""', '', text, flags=DOTALL)`:
at the leftmost `"""`, the non-greedy body ends at the next `"""`; delete
both delimiters and everything between, continue after the match.  When the
leftmost `"""` has no closing `"""`, no match exists anywhere (any later
opening would reuse the same closing), so the text is returned unchanged.
The fuel is the character count, which bounds the number of matches. -/
def removeDocstringL : Nat → List Char → List Char
  | 0, l => l
  | fuel + 1, l =>
    match findTriple l with
    | none => l
    | some (pre, rest) =>
      match findTriple rest with
      | none => l
      | some p => pre ++ removeDocstringL fuel p.2

/-- `remove_docstring` on a string. -/
def remove_docstring (s : String) : String :=
  String.mk (removeDocstringL s.data.length s.data)

/-! ## `check_module_using_comment_header` -/

/-- The `while` loop of `check_module_using_comment_header`: fetch
`implementation[idx]` (with Python wrap-around; `none` models the
`IndexError` once `idx` walks below `-len`), and while the fetched line is a
comment, record that a header was seen and step to `idx - 1`.  The fuel
`len + |start_line| + 2` strictly exceeds the number of loop steps possible
before the index leaves the valid range, so the `0` case is unreachable. -/
def cmuchAux (impl : List String) : Nat → Int → Bool → Option Bool
  | 0, _, _ => none
  | fuel + 1, idx, has =>
    match pyGet impl idx with
    | none => none
    | some line =>
      if isCommentLine line then cmuchAux impl fuel (idx - 1) true
      else some has

/-- `check_module_using_comment_header(implementation, start_line)`: walk
upward from `implementation[start_line - 1]` while the lines are comments.
`some b` is the returned boolean, `none` an `IndexError`. -/
def check_module_using_comment_header (impl : List String) (start_line : Int) :
    Option Bool :=
  cmuchAux impl (impl.length + start_line.natAbs + 2) (start_line - 1) false

/-! ## Parsed definition nodes -/

/-- The fields of an `ast.ClassDef` / `ast.FunctionDef` node that the tool
reads: the definition name, its 1-indexed start line `lineno`, its inclusive
1-indexed end line `end_lineno`, and whether `ast.get_docstring` is
non-empty for it. -/
structure PyDef where
  name : String
  lineno : Nat
  end_lineno : Nat
  has_docstring : Bool
deriving Repr, DecidableEq

/-- Shared body of the class/function header checks: `some true` when the
definition has neither a docstring nor a comment header (so its name is
collected), `none` when the comment-header walk raises. -/
def headlessOne (lines : List String) (d : PyDef) : Option Bool :=
  match check_module_using_comment_header lines ((d.lineno : Int) - 1) with
  | none => none
  | some ch => some (!d.has_docstring && !ch)

/-- `check_class_headers`: collect the names of classes lacking both kinds
of header; `none` when any comment-header walk raises. -/
def check_class_headers (lines : List String) : List PyDef → Option (List String)
  | [] => some []
  | d :: rest =>
    match headlessOne lines d with
    | none => none
    | some b =>
      (check_class_headers lines rest).map (fun l => if b then d.name :: l else l)

/-- The per-function step of `check_functions_headers`: a function whose
`def` line contains the substring `def __` is skipped outright (`some
false`); otherwise it behaves like the class check.  The `def` line is
fetched with Python indexing (`code.splitlines()[start_line]`). -/
def funcHeadless (lines : List String) (f : PyDef) : Option Bool :=
  match pyGet lines ((f.lineno : Int) - 1) with
  | none => none
  | some defLine =>
    if containsL defLine.data "def __".data then some false
    else headlessOne lines f

/-- `check_functions_headers`: collect the names of non-dunder functions
lacking both kinds of header; `none` when any step raises. -/
def check_functions_headers (lines : List String) :
    List PyDef → Option (List String)
  | [] => some []
  | f :: rest =>
    match funcHeadless lines f with
    | none => none
    | some b =>
      (check_functions_headers lines rest).map
        (fun l => if b then f.name :: l else l)

/-! ## `check_functions_less_than_40_lines` -/

/-- The comment-removal loop of `check_functions_less_than_40_lines`:
`for i, line in zip(range(len(fc)-1, -1, -1), reversed(fc)): if comment:
fc.pop(i)`.  The reversed iterator visits every element exactly once, at its
current index (each pop happens at the iterator's own position, so earlier
elements keep their indices); the net effect is that every comment line in
the span is removed, wherever it sits. -/
def stripCommentLines : List String → List String
  | [] => []
  | s :: rest =>
    if isCommentLine s then stripCommentLines rest
    else s :: stripCommentLines rest

/-- `'\n'.join(lines)`. -/
def joinNL : List String → String
  | [] => ""
  | [s] => s
  | s :: rest => s ++ "\n" ++ joinNL rest

/-- The per-function length test: slice the span
`code.splitlines()[lineno-1 : end_lineno]`, run the comment-removal loop,
join with newlines, strip docstrings, and compare the newline count with the
limit (`function_code.count('\n') > 40`). -/
def funcLong (lines : List String) (f : PyDef) : Bool :=
  let span := pySlice lines ((f.lineno : Int) - 1) (f.end_lineno : Int)
  let code := remove_docstring (joinNL (stripCommentLines span))
  decide (code.data.count '\n' > MAX_LINES_PER_METHOD)

/-- `check_functions_less_than_40_lines`: names of the functions whose
processed body has more than 40 newline characters. -/
def check_functions_less_than_40_lines (lines : List String) :
    List PyDef → List String
  | [] => []
  | f :: rest =>
    if funcLong lines f then
      f.name :: check_functions_less_than_40_lines lines rest
    else check_functions_less_than_40_lines lines rest

/-! ## Report aggregation (`generate_validation_output`) -/

/-- The `template_variables` dictionary. -/
structure TemplateVars where
  script_name : String
  file_header_exists : Bool
  exceptable_file_size : Bool
  valid_imports : Bool
  valid_line_lengths : Bool
  classes_have_headers : Bool
  functions_have_headers : Bool
  valid_function_lengths : Bool
  valid_variable_lengths : Bool
  invalid_import_checkboxes : String
  invalid_line_length_checkboxes : String
  classes_without_headers_checkboxes : String
  functions_without_headers_checkboxes : String
  invalid_function_length_checkboxes : String
  invalid_variable_length_checkboxes : String
deriving Repr, DecidableEq

/-- `set_data_for_parsing`: the initial `template_variables` values — every
flag `True`, every checkbox string empty. -/
def set_data_for_parsing : TemplateVars :=
  ⟨"", true, true, true, true, true, true, true, true, "", "", "", "", "", ""⟩

/-- The `specific_file_information` dictionary after the checks ran. -/
structure SpecificFileInformation where
  invalid_imports : List String
  invalid_lengthy_lines : List Nat
  headless_classes : List String
  headless_functions : List String
  invalid_lengthy_functions : List String
  invalid_lengthy_variables : List Nat
deriving Repr, DecidableEq

/-- `CHECKBOX_OUTLINE.format(" ", item)`: one unchecked-checkbox line. -/
def checkboxLine (item : String) : String := " - [ ] " ++ item ++ "\n"

/-- `"Line Number - {}".format(n)`. -/
def lineNumberString (n : Nat) : String := "Line Number - " ++ toString n

/-- One of the six loops of `generate_validation_output`: for every item the
flag is set to `False` and a checkbox line is appended to the accumulator. -/
def aggLoop : List String → Bool → String → Bool × String
  | [], flag, acc => (flag, acc)
  | x :: rest, _, acc => aggLoop rest false (acc ++ checkboxLine x)

/-- `generate_validation_output`: run the six aggregation loops over the
violation lists, starting from the given `template_variables` state. -/
def generate_validation_output (tv : TemplateVars)
    (info : SpecificFileInformation) : TemplateVars :=
  let p1 := aggLoop (info.invalid_lengthy_lines.map lineNumberString)
    tv.valid_line_lengths tv.invalid_line_length_checkboxes
  let p2 := aggLoop (info.invalid_lengthy_variables.map lineNumberString)
    tv.valid_variable_lengths tv.invalid_variable_length_checkboxes
  let p3 := aggLoop info.invalid_lengthy_functions
    tv.valid_function_lengths tv.invalid_function_length_checkboxes
  let p4 := aggLoop info.headless_functions
    tv.functions_have_headers tv.functions_without_headers_checkboxes
  let p5 := aggLoop info.headless_classes
    tv.classes_have_headers tv.classes_without_headers_checkboxes
  let p6 := aggLoop info.invalid_imports
    tv.valid_imports tv.invalid_import_checkboxes
  ⟨tv.script_name, tv.file_header_exists, tv.exceptable_file_size,
    p6.1, p1.1, p5.1, p4.1, p3.1, p2.1,
    p6.2, p1.2, p5.2, p4.2, p3.2, p2.2⟩

/-- The per-field substitution rule of `write_validation_output`: an empty
formatted string is rendered as the literal text `None :)`. -/
def renderField (s : String) : String := if s = "" then "None :)" else s

/-! ## Per-file driver (`parse_python_file`) -/

/-- What the tool supplies about one input file: its base name, its raw
lines, the module body (one boolean per top-level statement, true when the
statement is a standalone string literal), and the function and class nodes
found by walking the parsed tree. -/
structure FileModel where
  path_basename : String
  lines : List String
  body_is_str_expr : List Bool
  funcs : List PyDef
  classes : List PyDef
deriving Repr, DecidableEq

/-- The observable outcome of `parse_python_file` on one file: the file was
silently skipped (no checks, no output written), an exception escaped, or a
report with the given template variables was written. -/
inductive RunOutcome
  | skipped
  | raised
  | wrote (tv : TemplateVars)
deriving Repr, DecidableEq

/-- `parse_python_file`: reset the dictionaries, read the lines, return
early on an empty file, otherwise run every check, aggregate, and write the
report.  Any `IndexError` escaping a check aborts the run (`raised`). -/
def parse_python_file (fm : FileModel) : RunOutcome :=
  let tv0 := set_data_for_parsing
  if fm.lines.length = 0 then RunOutcome.skipped
  else
    match check_for_file_header fm.lines fm.body_is_str_expr with
    | none => RunOutcome.raised
    | some fh =>
      match check_functions_headers fm.lines fm.funcs with
      | none => RunOutcome.raised
      | some hf =>
        match check_class_headers fm.lines fm.classes with
        | none => RunOutcome.raised
        | some hc =>
          let info : SpecificFileInformation :=
            ⟨check_invalid_imports fm.lines,
             check_implementation_line_length fm.lines,
             hc, hf,
             check_functions_less_than_40_lines fm.lines fm.funcs,
             check_implementation_variable_length fm.lines⟩
          let tv1 : TemplateVars :=
            ⟨fm.path_basename, fh, check_file_too_large fm.lines,
             tv0.valid_imports, tv0.valid_line_lengths,
             tv0.classes_have_headers, tv0.functions_have_headers,
             tv0.valid_function_lengths, tv0.valid_variable_lengths,
             tv0.invalid_import_checkboxes, tv0.invalid_line_length_checkboxes,
             tv0.classes_without_headers_checkboxes,
             tv0.functions_without_headers_checkboxes,
             tv0.invalid_function_length_checkboxes,
             tv0.invalid_variable_length_checkboxes⟩
          RunOutcome.wrote (generate_validation_output tv1 info)

/-! ## Concrete inputs used by individual claims -/

/-- Concatenation of the rendered entries of a list, in list order. -/
def concatMapStr (f : α → String) : List α → String
  | [] => ""
  | x :: rest => f x ++ concatMapStr f rest

/-- The predicate "this function's `def` line contains the dunder marker
`def __`" that `check_functions_headers` uses to skip a function. -/
def isDunderDefLine (lines : List String) (f : PyDef) : Bool :=
  match pyGet lines ((f.lineno : Int) - 1) with
  | some s => containsL s.data "def __".data
  | none => false

/-- A file holding one dunder-named function of 45 plain body lines. -/
def c2Lines : List String := "def __dunder__():" :: List.replicate 44 "    x = 1"

/-- The parsed node of the dunder function in `c2Lines`. -/
def c2Func : PyDef := ⟨"__dunder__", 1, 45, false⟩

/-- A file holding one function spanning 45 lines, ten of which are
comment-only lines in the middle of the body (not at the tail). -/
def c4Lines : List String :=
  "def g():" :: (List.replicate 17 "    y = 2" ++
    List.replicate 10 "    # mid comment" ++ List.replicate 17 "    y = 2")

/-- The parsed node of the function in `c4Lines`. -/
def c4Func : PyDef := ⟨"g", 1, 45, false⟩

/-- The function-length computation exactly as the claim words it: extract
the span, strip comment-only lines from the tail of the span only, strip
triple-quoted blocks, and count the newline-separated lines of what remains
(a text with `k` newline characters has `k + 1` newline-separated lines). -/
def specTailStripCount (lines : List String) (f : PyDef) : Nat :=
  let span := pySlice lines ((f.lineno : Int) - 1) (f.end_lineno : Int)
  let kept := (span.reverse.dropWhile isCommentLine).reverse
  (remove_docstring (joinNL kept)).data.count '\n' + 1

/-- A file holding one function spanning 45 non-comment, non-docstring
lines. -/
def c4bLines : List String := "def h45():" :: List.replicate 44 "    y = 2"

/-- A very long line that is entirely a comment. -/
def c7Line : String := String.mk ('#' :: List.replicate 200 'a')

/-- An assignment line whose identifier is 27 characters of digits and
underscores — longer than the limit, and containing no capital letters. -/
def c8Line : String := "_23456789012345678901234567 = 1"

/-! ## Helper lemmas -/

theorem strAppendEmpty (s : String) : s ++ "" = s := by
  cases s with
  | mk data =>
    show String.mk (data ++ []) = String.mk data
    rw [List.append_nil]

theorem strEmptyAppend (s : String) : "" ++ s = s := by
  cases s with
  | mk data => rfl

theorem strAppendAssoc (a b c : String) : a ++ b ++ c = a ++ (b ++ c) := by
  cases a with
  | mk da =>
    cases b with
    | mk db =>
      cases c with
      | mk dc =>
        show String.mk (da ++ db ++ dc) = String.mk (da ++ (db ++ dc))
        rw [List.append_assoc]

/-- Closed form of one aggregation loop: the flag survives only on an empty
list, and one checkbox line per item is appended in list order. -/
theorem aggLoop_eq (items : List String) (flag : Bool) (acc : String) :
    aggLoop items flag acc =
      (flag && items.isEmpty, acc ++ concatMapStr checkboxLine items) := by
  induction items generalizing flag acc with
  | nil => simp [aggLoop, concatMapStr, strAppendEmpty]
  | cons x rest ih =>
    simp only [aggLoop, concatMapStr, ih, List.isEmpty_cons, Bool.and_false,
      Bool.false_and, strAppendAssoc]

/-- `stripCommentLines` removes exactly the comment lines (the reversed
iteration with `pop` at the iterator's own index visits each element once). -/
theorem stripCommentLines_eq_filter (l : List String) :
    stripCommentLines l = l.filter (fun s => !(isCommentLine s)) := by
  induction l with
  | nil => rfl
  | cons s rest ih =>
    by_cases h : isCommentLine s = true
    · simp [stripCommentLines, h, ih, List.filter]
    · simp only [Bool.not_eq_true] at h
      simp [stripCommentLines, h, ih, List.filter]

/-- Membership characterization of the line-length loop: `n` is collected
exactly when it is the 1-indexed number (offset by the running index `k`) of
a non-comment line whose comment-stripped length exceeds the limit. -/
theorem cillAux_mem_iff (lines : List String) :
    ∀ k n, n ∈ cillAux k lines ↔
      ∃ i, i < lines.length ∧ n = k + i + 1 ∧
        isCommentLine (lines.getD i "") = false ∧
        (pyStripHash (lines.getD i "")).length > MAX_LINE_CHARACTERS := by
  induction lines with
  | nil => intro k n; simp [cillAux]
  | cons line rest ih =>
    intro k n
    have hsplit : ∀ (P : Nat → Prop),
        (∃ i, i < rest.length + 1 ∧ P i) ↔ (P 0 ∨ ∃ j, j < rest.length ∧ P (j + 1)) := by
      intro P
      constructor
      · rintro ⟨i, hi, hp⟩
        cases i with
        | zero => exact Or.inl hp
        | succ j => exact Or.inr ⟨j, by omega, hp⟩
      · rintro (hp | ⟨j, hj, hp⟩)
        · exact ⟨0, by omega, hp⟩
        · exact ⟨j + 1, by omega, hp⟩
    by_cases hc : isCommentLine line = true
    · have hstep : cillAux k (line :: rest) = cillAux (k + 1) rest := by
        simp [cillAux, hc]
      rw [hstep, ih (k + 1) n]
      simp only [List.length_cons, List.getD_cons_zero, List.getD_cons_succ, hsplit]
      constructor
      · rintro ⟨j, hj, hn, h1, h2⟩
        exact Or.inr ⟨j, hj, by omega, h1, h2⟩
      · rintro (⟨_, hfalse, _⟩ | ⟨j, hj, hn, h1, h2⟩)
        · rw [hc] at hfalse; cases hfalse
        · exact ⟨j, hj, by omega, h1, h2⟩
    · have hc' : isCommentLine line = false := by
        simpa using hc
      by_cases hl : (pyStripHash line).length > MAX_LINE_CHARACTERS
      · have hstep : cillAux k (line :: rest) = (k + 1) :: cillAux (k + 1) rest := by
          simp [cillAux, hc', hl]
        rw [hstep]
        simp only [List.mem_cons, ih (k + 1) n, List.length_cons,
          List.getD_cons_zero, List.getD_cons_succ, hsplit]
        constructor
        · rintro (rfl | ⟨j, hj, hn, h1, h2⟩)
          · exact Or.inl ⟨by omega, hc', hl⟩
          · exact Or.inr ⟨j, hj, by omega, h1, h2⟩
        · rintro (⟨hn, _, _⟩ | ⟨j, hj, hn, h1, h2⟩)
          · exact Or.inl (by omega)
          · exact Or.inr ⟨j, hj, by omega, h1, h2⟩
      · have hstep : cillAux k (line :: rest) = cillAux (k + 1) rest := by
          simp [cillAux, hc', hl]
        rw [hstep, ih (k + 1) n]
        simp only [List.length_cons, List.getD_cons_zero, List.getD_cons_succ, hsplit]
        constructor
        · rintro ⟨j, hj, hn, h1, h2⟩
          exact Or.inr ⟨j, hj, by omega, h1, h2⟩
        · rintro (⟨_, _, h2⟩ | ⟨j, hj, hn, h1, h2⟩)
          · exact absurd h2 hl
          · exact ⟨j, hj, by omega, h1, h2⟩

/-- Membership characterization of the variable-length loop: `n` is
collected exactly when the first assigned identifier of line `n - 1` exists,
is not uppercase-invariant, and is longer than the limit. -/
theorem civlAux_mem_iff (lines : List String) :
    ∀ k n, n ∈ civlAux k lines ↔
      ∃ i, i < lines.length ∧ n = k + i + 1 ∧
        ∃ w, findAssignIdent false ((lines.getD i "").data) = some w ∧
          isUpperInvariant w = false ∧ w.length > MAX_VARIABLE_NAME_LENGTH := by
  induction lines with
  | nil => intro k n; simp [civlAux]
  | cons line rest ih =>
    intro k n
    have hsplit : ∀ (P : Nat → Prop),
        (∃ i, i < rest.length + 1 ∧ P i) ↔ (P 0 ∨ ∃ j, j < rest.length ∧ P (j + 1)) := by
      intro P
      constructor
      · rintro ⟨i, hi, hp⟩
        cases i with
        | zero => exact Or.inl hp
        | succ j => exact Or.inr ⟨j, by omega, hp⟩
      · rintro (hp | ⟨j, hj, hp⟩)
        · exact ⟨0, by omega, hp⟩
        · exact ⟨j + 1, by omega, hp⟩
    rcases hfind : findAssignIdent false line.data with _ | w
    · have hstep : civlAux k (line :: rest) = civlAux (k + 1) rest := by
        simp [civlAux, hfind]
      rw [hstep, ih (k + 1) n]
      simp only [List.length_cons, List.getD_cons_zero, List.getD_cons_succ, hsplit]
      constructor
      · rintro ⟨j, hj, hn, hw⟩
        exact Or.inr ⟨j, hj, by omega, hw⟩
      · rintro (⟨_, w, hw, _, _⟩ | ⟨j, hj, hn, hw⟩)
        · rw [hfind] at hw; cases hw
        · exact ⟨j, hj, by omega, hw⟩
    · by_cases hup : isUpperInvariant w = true
      · have hstep : civlAux k (line :: rest) = civlAux (k + 1) rest := by
          simp [civlAux, hfind, hup]
        rw [hstep, ih (k + 1) n]
        simp only [List.length_cons, List.getD_cons_zero, List.getD_cons_succ, hsplit]
        constructor
        · rintro ⟨j, hj, hn, hw⟩
          exact Or.inr ⟨j, hj, by omega, hw⟩
        · rintro (⟨_, w', hw', hinv, _⟩ | ⟨j, hj, hn, hw⟩)
          · rw [hfind] at hw'
            cases hw'
            rw [hup] at hinv; cases hinv
          · exact ⟨j, hj, by omega, hw⟩
      · have hup' : isUpperInvariant w = false := by simpa using hup
        by_cases hlen : w.length > MAX_VARIABLE_NAME_LENGTH
        · have hstep : civlAux k (line :: rest) = (k + 1) :: civlAux (k + 1) rest := by
            simp [civlAux, hfind, hup', hlen]
          rw [hstep]
          simp only [List.mem_cons, ih (k + 1) n, List.length_cons,
            List.getD_cons_zero, List.getD_cons_succ, hsplit]
          constructor
          · rintro (rfl | ⟨j, hj, hn, hw⟩)
            · exact Or.inl ⟨by omega, w, hfind, hup', hlen⟩
            · exact Or.inr ⟨j, hj, by omega, hw⟩
          · rintro (⟨hn, _⟩ | ⟨j, hj, hn, hw⟩)
            · exact Or.inl (by omega)
            · exact Or.inr ⟨j, hj, by omega, hw⟩
        · have hstep : civlAux k (line :: rest) = civlAux (k + 1) rest := by
            simp [civlAux, hfind, hup', hlen]
          rw [hstep, ih (k + 1) n]
          simp only [List.length_cons, List.getD_cons_zero, List.getD_cons_succ, hsplit]
          constructor
          · rintro ⟨j, hj, hn, hw⟩
            exact Or.inr ⟨j, hj, by omega, hw⟩
          · rintro (⟨_, w', hw', _, hlen'⟩ | ⟨j, hj, hn, hw⟩)
            · rw [hfind] at hw'
              cases hw'
              exact absurd hlen' hlen
            · exact ⟨j, hj, by omega, hw⟩

/-- Membership characterization of the wildcard-import check: a module text
is recorded exactly when some line is not skipped by the `import` prefix
test, is matched by the from-import regex with that capture, and contains
the wildcard marker. -/
theorem cii_mem_iff (lines : List String) (m : String) :
    m ∈ check_invalid_imports lines ↔
      ∃ line ∈ lines,
        startsWithL (pyStripL line.data) "import".data = false ∧
        (fromImportSearch line.data).map String.mk = some m ∧
        containsL line.data "import *".data = true := by
  induction lines with
  | nil => simp [check_invalid_imports]
  | cons line rest ih =>
    by_cases h1 : startsWithL (pyStripL line.data) "import".data = true
    · have hstep : check_invalid_imports (line :: rest) = check_invalid_imports rest := by
        simp [check_invalid_imports, h1]
      rw [hstep, ih]
      constructor
      · rintro ⟨l, hl, hp⟩
        exact ⟨l, List.mem_cons_of_mem _ hl, hp⟩
      · rintro ⟨l, hl, hp⟩
        rcases List.mem_cons.mp hl with rfl | hl'
        · rw [h1] at hp
          rcases hp with ⟨hfalse, _⟩
          cases hfalse
        · exact ⟨l, hl', hp⟩
    · have h1' : startsWithL (pyStripL line.data) "import".data = false := by
        simpa using h1
      rcases hfind : fromImportSearch line.data with _ | cap
      · have hstep : check_invalid_imports (line :: rest) = check_invalid_imports rest := by
          simp [check_invalid_imports, h1', hfind]
        rw [hstep, ih]
        constructor
        · rintro ⟨l, hl, hp⟩
          exact ⟨l, List.mem_cons_of_mem _ hl, hp⟩
        · rintro ⟨l, hl, hp⟩
          rcases List.mem_cons.mp hl with rfl | hl'
          · rw [hfind] at hp
            rcases hp with ⟨_, hsome, _⟩
            cases hsome
          · exact ⟨l, hl', hp⟩
      · by_cases h2 : containsL line.data "import *".data = true
        · have hstep : check_invalid_imports (line :: rest) =
              String.mk cap :: check_invalid_imports rest := by
            simp [check_invalid_imports, h1', hfind, h2]
          rw [hstep]
          simp only [List.mem_cons, ih]
          constructor
          · rintro (rfl | ⟨l, hl, hp⟩)
            · exact ⟨line, Or.inl rfl, h1', by rw [hfind]; rfl, h2⟩
            · exact ⟨l, Or.inr hl, hp⟩
          · rintro ⟨l, hl, hp⟩
            rcases hl with rfl | hl'
            · rw [hfind] at hp
              rcases hp with ⟨_, hsome, _⟩
              exact Or.inl (by injection hsome with h; exact h.symm)
            · exact Or.inr ⟨l, hl', hp⟩
        · have h2' : containsL line.data "import *".data = false := by simpa using h2
          have hstep : check_invalid_imports (line :: rest) = check_invalid_imports rest := by
            simp [check_invalid_imports, h1', hfind, h2']
          rw [hstep, ih]
          constructor
          · rintro ⟨l, hl, hp⟩
            exact ⟨l, List.mem_cons_of_mem _ hl, hp⟩
          · rintro ⟨l, hl, hp⟩
            rcases List.mem_cons.mp hl with rfl | hl'
            · rcases hp with ⟨_, _, hcont⟩
              rw [h2'] at hcont
              cases hcont
            · exact ⟨l, hl', hp⟩

/-- Membership characterization of the long-function check: a name is
collected exactly when some listed function node carries it and satisfies
the per-function length test. -/
theorem cfl_mem_iff (lines : List String) (funcs : List PyDef) (n : String) :
    n ∈ check_functions_less_than_40_lines lines funcs ↔
      ∃ f ∈ funcs, f.name = n ∧ funcLong lines f = true := by
  induction funcs with
  | nil => simp [check_functions_less_than_40_lines]
  | cons f rest ih =>
    by_cases hf : funcLong lines f = true
    · have hstep : check_functions_less_than_40_lines lines (f :: rest) =
          f.name :: check_functions_less_than_40_lines lines rest := by
        simp [check_functions_less_than_40_lines, hf]
      rw [hstep]
      simp only [List.mem_cons, ih]
      constructor
      · rintro (rfl | ⟨g, hg, hp⟩)
        · exact ⟨f, Or.inl rfl, rfl, hf⟩
        · exact ⟨g, Or.inr hg, hp⟩
      · rintro ⟨g, hg, hname, hlong⟩
        rcases hg with rfl | hg'
        · exact Or.inl hname.symm
        · exact Or.inr ⟨g, hg', hname, hlong⟩
    · have hf' : funcLong lines f = false := by simpa using hf
      have hstep : check_functions_less_than_40_lines lines (f :: rest) =
          check_functions_less_than_40_lines lines rest := by
        simp [check_functions_less_than_40_lines, hf']
      rw [hstep, ih]
      constructor
      · rintro ⟨g, hg, hp⟩
        exact ⟨g, List.mem_cons_of_mem _ hg, hp⟩
      · rintro ⟨g, hg, hname, hlong⟩
        rcases List.mem_cons.mp hg with rfl | hg'
        · rw [hf'] at hlong; cases hlong
        · exact ⟨g, hg', hname, hlong⟩

/-- A function whose `def` line carries the dunder marker is skipped by the
function header check (it contributes `some false`). -/
theorem dunder_funcHeadless (lines : List String) (f : PyDef)
    (h : isDunderDefLine lines f = true) : funcHeadless lines f = some false := by
  unfold isDunderDefLine at h
  unfold funcHeadless
  rcases hp : pyGet lines ((f.lineno : Int) - 1) with _ | s
  · rw [hp] at h; cases h
  · rw [hp] at h
    simp at h
    simp [h]

/-- A name collected by a successful run of the function header check comes
from some listed function node whose headless test returned `some true`. -/
theorem cfh_mem (lines : List String) (funcs : List PyDef) :
    ∀ l, check_functions_headers lines funcs = some l →
      ∀ n, n ∈ l → ∃ f ∈ funcs, f.name = n ∧ funcHeadless lines f = some true := by
  induction funcs with
  | nil =>
    intro l hl n hn
    simp only [check_functions_headers] at hl
    cases hl
    cases hn
  | cons f rest ih =>
    intro l hl n hn
    simp only [check_functions_headers] at hl
    rcases hstep : funcHeadless lines f with _ | b
    · rw [hstep] at hl; cases hl
    · rw [hstep] at hl
      rcases hrest : check_functions_headers lines rest with _ | l'
      · rw [hrest] at hl; cases hl
      · rw [hrest] at hl
        simp only [Option.map_some] at hl
        cases hl
        by_cases hb : b = true
        · subst hb
          simp only [if_true] at hn
          rcases List.mem_cons.mp hn with rfl | hn'
          · exact ⟨f, List.mem_cons_self _ _, rfl, hstep⟩
          · obtain ⟨g, hg, hp⟩ := ih l' hrest n hn'
            exact ⟨g, List.mem_cons_of_mem _ hg, hp⟩
        · have hb' : b = false := by simpa using hb
          subst hb'
          simp only [Bool.false_eq_true, if_false] at hn
          obtain ⟨g, hg, hp⟩ := ih l' hrest n hn
          exact ⟨g, List.mem_cons_of_mem _ hg, hp⟩

/-! ## Claims -/

/-- C1: the claim says that with `start_line = 0` the header-comment
detector never indexes before the start of the file and returns `false`
regardless of the file's other contents.  In the code,
`implementation[start_line - 1]` is `implementation[-1]` — Python
wrap-around indexing reads the LAST line of the file — so the detector
returns `true` whenever the last line is a comment, and raises `IndexError`
when every line is a comment (the walk runs off the front of the negative
range). -/
theorem c1_start_line_zero_reads_last_line :
    check_module_using_comment_header ["def f(): pass", "# trailing comment"] 0
      = some true
    ∧ check_module_using_comment_header ["# only", "# comments"] 0 = none := by
  exact ⟨by decide, by decide⟩

/-- C2 counterexample: a function named with the reserved double-underscore
convention whose body spans 45 plain lines DOES appear in the long-function
violation list — the claim says it never does. -/
theorem c2_counterexample :
    startsWithL "__dunder__".data "__".data = true
    ∧ isDunderDefLine c2Lines c2Func = true
    ∧ "__dunder__" ∈ check_functions_less_than_40_lines c2Lines [c2Func] := by
  exact ⟨by decide, by decide, by decide⟩

/-- C2 (amended): functions whose `def` line matches the double-underscore
convention are excluded from the missing-header check (a name all of whose
carriers are dunder functions never appears in the headless-functions list),
but they are NOT excluded from the long-function check: a dunder function
with a long enough body appears in the long-function violation list. -/
theorem c2_dunder_exclusion :
    (∀ (lines : List String) (funcs : List PyDef) (l : List String) (n : String),
        check_functions_headers lines funcs = some l →
        (∀ f ∈ funcs, f.name = n → isDunderDefLine lines f = true) →
        n ∉ l)
    ∧ "__dunder__" ∈ check_functions_less_than_40_lines c2Lines [c2Func] := by
  constructor
  · intro lines funcs l n hsome hdunder hn
    obtain ⟨f, hf, hname, htrue⟩ := cfh_mem lines funcs l hsome n hn
    have hfalse := dunder_funcHeadless lines f (hdunder f hf hname)
    rw [hfalse] at htrue
    simp at htrue
  · decide

/-- Witness for C2: on a concrete file with one dunder function and one
headerless plain function, the header check succeeds with list `["plain"]`
and the dunder name is indeed absent from it. -/
theorem c2_dunder_exclusion_witness :
    "__w__" ∉ ["plain"] :=
  c2_dunder_exclusion.1
    ["def __w__():", "    pass", "def plain():", "    pass"]
    [⟨"__w__", 1, 2, false⟩, ⟨"plain", 3, 4, false⟩] ["plain"] "__w__"
    (by decide) (by decide)

/-- C3: the line-length check flags a line (recording its 1-indexed number)
exactly when the line is not a comment line and its length after stripping
the `#`-introduced comment suffix exceeds 150 characters; a line of exactly
151 non-comment characters is flagged and one of exactly 150 is not. -/
theorem c3_line_length_boundary :
    (∀ (lines : List String) (n : Nat),
        n ∈ check_implementation_line_length lines ↔
          ∃ i, i < lines.length ∧ n = i + 1 ∧
            isCommentLine (lines.getD i "") = false ∧
            (pyStripHash (lines.getD i "")).length > MAX_LINE_CHARACTERS)
    ∧ check_implementation_line_length [String.mk (List.replicate 151 'a')] = [1]
    ∧ check_implementation_line_length [String.mk (List.replicate 150 'a')] = [] := by
  refine ⟨fun lines n => ?_, by decide, by decide⟩
  rw [check_implementation_line_length, cillAux_mem_iff lines 0 n]
  constructor
  · rintro ⟨i, hi, hn, h1, h2⟩
    exact ⟨i, hi, by omega, h1, h2⟩
  · rintro ⟨i, hi, hn, h1, h2⟩
    exact ⟨i, hi, by omega, h1, h2⟩

/-- C4 counterexample: for a function spanning 45 lines with ten
comment-only lines in the MIDDLE of its body, the claim's recipe (strip
comment lines only from the tail of the span, then count newline-separated
lines) gives 45 > 40 and says the function is flagged — but the code removes
comment lines anywhere in the span and compares the newline count, so the
function is NOT in the long-function list. -/
theorem c4_counterexample :
    specTailStripCount c4Lines c4Func > 40
    ∧ "g" ∉ check_functions_less_than_40_lines c4Lines [c4Func] := by
  exact ⟨by decide, by decide⟩

/-- C4 (amended): a function is flagged iff, after removing comment-only
lines ANYWHERE in its extracted span (not only at the tail) and stripping
triple-quoted blocks from the joined text, the number of newline characters
remaining (one fewer than the number of newline-separated lines) exceeds 40;
a function spanning 45 non-comment, non-docstring lines is flagged. -/
theorem c4_function_length :
    (∀ (lines : List String) (funcs : List PyDef) (n : String),
        n ∈ check_functions_less_than_40_lines lines funcs ↔
          ∃ f ∈ funcs, f.name = n ∧
            (remove_docstring (joinNL
              ((pySlice lines ((f.lineno : Int) - 1) (f.end_lineno : Int)).filter
                (fun s => !(isCommentLine s))))).data.count '\n'
              > MAX_LINES_PER_METHOD)
    ∧ "h45" ∈ check_functions_less_than_40_lines c4bLines [⟨"h45", 1, 45, false⟩] := by
  constructor
  · intro lines funcs n
    rw [cfl_mem_iff]
    have hfl : ∀ f : PyDef, funcLong lines f = true ↔
        (remove_docstring (joinNL
          ((pySlice lines ((f.lineno : Int) - 1) (f.end_lineno : Int)).filter
            (fun s => !(isCommentLine s))))).data.count '\n'
          > MAX_LINES_PER_METHOD := by
      intro f
      simp only [funcLong, stripCommentLines_eq_filter, decide_eq_true_eq]
    constructor
    · rintro ⟨f, hf, hname, hlong⟩
      exact ⟨f, hf, hname, (hfl f).mp hlong⟩
    · rintro ⟨f, hf, hname, hcount⟩
      exact ⟨f, hf, hname, (hfl f).mpr hcount⟩
  · decide

/-- C5: after aggregation every "valid" flag equals the emptiness of its
violation list (so it is false exactly when the list is non-empty), every
formatted string is the concatenation of one unchecked-checkbox line per
item in list order (so it is empty exactly when the list is empty), and the
renderer later substitutes the literal `None :)` for an empty formatted
string. -/
theorem c5_aggregation :
    (∀ info : SpecificFileInformation,
        generate_validation_output set_data_for_parsing info =
          ⟨"", true, true,
            info.invalid_imports.isEmpty,
            info.invalid_lengthy_lines.isEmpty,
            info.headless_classes.isEmpty,
            info.headless_functions.isEmpty,
            info.invalid_lengthy_functions.isEmpty,
            info.invalid_lengthy_variables.isEmpty,
            concatMapStr checkboxLine info.invalid_imports,
            concatMapStr checkboxLine (info.invalid_lengthy_lines.map lineNumberString),
            concatMapStr checkboxLine info.headless_classes,
            concatMapStr checkboxLine info.headless_functions,
            concatMapStr checkboxLine info.invalid_lengthy_functions,
            concatMapStr checkboxLine (info.invalid_lengthy_variables.map lineNumberString)⟩)
    ∧ renderField "" = "None :)" := by
  constructor
  · intro info
    have hmap : ∀ (l : List Nat) (f : Nat → String), (l.map f).isEmpty = l.isEmpty := by
      intro l f; cases l <;> rfl
    simp only [generate_validation_output, set_data_for_parsing, aggLoop_eq,
      Bool.true_and, strEmptyAppend, hmap]
  · rfl

/-- C6: the wildcard-import check records the captured module text exactly
for the lines not skipped by the `import`-prefix test that match the
from-import pattern and contain the wildcard marker `import *`; in
particular `from os import *` yields the violation `os`, and
`import os, sys, re` yields no violation. -/
theorem c6_wildcard_imports :
    (∀ (lines : List String) (m : String),
        m ∈ check_invalid_imports lines ↔
          ∃ line ∈ lines,
            startsWithL (pyStripL line.data) "import".data = false ∧
            (fromImportSearch line.data).map String.mk = some m ∧
            containsL line.data "import *".data = true)
    ∧ check_invalid_imports ["from os import *"] = ["os"]
    ∧ check_invalid_imports ["import os, sys, re"] = [] := by
  exact ⟨cii_mem_iff, by decide, by decide⟩

/-- C7: a line that is entirely a comment (its stripped text begins with
`#`) never appears in the long-line violation list, regardless of its
length. -/
theorem c7_comment_lines_never_flagged (lines : List String) (i : Nat)
    (h : isCommentLine (lines.getD i "") = true) :
    (i + 1) ∉ check_implementation_line_length lines := by
  rw [check_implementation_line_length, cillAux_mem_iff lines 0 (i + 1)]
  rintro ⟨j, hj, hn, hcom, _⟩
  have : j = i := by omega
  subst this
  rw [h] at hcom
  cases hcom

/-- Witness for C7: a 201-character pure comment line is not flagged. -/
theorem c7_comment_lines_never_flagged_witness :
    isCommentLine ([c7Line].getD 0 "") = true
    ∧ (0 + 1) ∉ check_implementation_line_length [c7Line] :=
  ⟨by decide, c7_comment_lines_never_flagged [c7Line] 0 (by decide)⟩

/-- C8 counterexample: the line `_23456789012345678901234567 = 1` assigns a
27-character identifier that contains no capital letters at all — so the
claim's "otherwise" branch (length over 25 is recorded) applies — yet the
check records nothing, because the exemption test is `word.upper() == word`,
which also exempts identifiers made of digits and underscores only. -/
theorem c8_counterexample :
    findAssignIdent false c8Line.data = some "_23456789012345678901234567".data
    ∧ "_23456789012345678901234567".data.all (fun c => !c.isUpper) = true
    ∧ "_23456789012345678901234567".length > MAX_VARIABLE_NAME_LENGTH
    ∧ check_implementation_variable_length [c8Line] = [] := by
  exact ⟨by decide, by decide, by decide, by decide⟩

/-- C8 (amended): a line is flagged exactly when its first matched assigned
identifier is NOT uppercase-invariant (`word.upper() == word` fails, i.e.
the identifier contains a lowercase letter) and is longer than 25
characters; uppercase-invariant identifiers — all-caps constants, but also
identifiers of digits and underscores only — are exempt regardless of
length, and only the first match per line is considered. -/
theorem c8_variable_length :
    (∀ (lines : List String) (n : Nat),
        n ∈ check_implementation_variable_length lines ↔
          ∃ i, i < lines.length ∧ n = i + 1 ∧
            ∃ w, findAssignIdent false ((lines.getD i "").data) = some w ∧
              isUpperInvariant w = false ∧ w.length > MAX_VARIABLE_NAME_LENGTH)
    ∧ check_implementation_variable_length ["THIS_IS_A_LONG_CONSTANT_NAME_X = 1"] = []
    ∧ check_implementation_variable_length ["this_is_a_long_variable_name_x = 1"] = [1] := by
  refine ⟨fun lines n => ?_, by decide, by decide⟩
  rw [check_implementation_variable_length, civlAux_mem_iff lines 0 n]
  constructor
  · rintro ⟨i, hi, hn, hw⟩
    exact ⟨i, hi, by omega, hw⟩
  · rintro ⟨i, hi, hn, hw⟩
    exact ⟨i, hi, by omega, hw⟩

/-- C9: a file with zero lines is silently skipped — the per-file run
returns before any check or write, producing no report. -/
theorem c9_empty_file_skipped (fm : FileModel) (h : fm.lines = []) :
    parse_python_file fm = RunOutcome.skipped := by
  simp [parse_python_file, h]

/-- Witness for C9: the concrete empty file is skipped. -/
theorem c9_empty_file_skipped_witness :
    parse_python_file ⟨"empty.py", [], [], [], []⟩ = RunOutcome.skipped :=
  c9_empty_file_skipped ⟨"empty.py", [], [], [], []⟩ rfl

/-- C10: on a non-empty, syntactically valid file whose module body holds
no statements (e.g. two blank lines) and whose first line does not begin
with `#` after stripping, the file-header check evaluates `tree.body[0]` on
an empty body and raises `IndexError` (`none`) instead of returning a
boolean; the whole per-file run aborts with that exception. -/
theorem c10_empty_module_body_raises :
    isCommentLine "" = false
    ∧ check_for_file_header ["", ""] [] = none
    ∧ parse_python_file ⟨"blank.py", ["", ""], [], [], []⟩ = RunOutcome.raised := by
  exact ⟨by decide, by decide, by decide⟩

